import Mathlib

/-
Verification development for the urls2disk repository (a Rust library that
downloads a batch of remote documents to disk under three concurrency/rate
gates, optionally converting them to PDF with the external wkhtmltopdf tool).

Shallow embedding conventions:
* Rust `usize`/`u64` values are modelled as `Nat`; where the source can wrap
  (release-profile two's-complement arithmetic), the wrap is modelled
  explicitly against the modulus 2^64 (64-bit targets).
* Fallible Rust code (`Result<T, failure::Error>`) is modelled as
  `Except String _`.
* The filesystem is a map from path strings to optional byte vectors; writes
  are modelled as atomic (on-disk persistence mechanics are outside the
  core per the specification).
* The HTTP transport and the wkhtmltopdf subprocess are oracles supplied as
  plain functions (their contracts are specified only at the boundary).
-/

namespace Urls2disk

/-- 2^64, the modulus of `usize`/`u64` arithmetic on the 64-bit targets the
crate is built for. -/
def U64 : Nat := 2 ^ 64

/-- Wrapping decrement of a `usize` value (release-profile semantics of
`x -= 1`): `0` wraps to `2^64 - 1`.  Faithful for all representable values
(`n < 2^64`). -/
def wrapDec (n : Nat) : Nat := if n = 0 then U64 - 1 else n - 1

/-- `std::time::Duration`: whole seconds (`u64`) plus subsecond nanoseconds
(`u32`, kept below 10^9 by the Rust type's constructor). -/
structure Duration where
  secs : Nat
  nanos : Nat
deriving DecidableEq, Repr

/-- `Duration::from_millis`. -/
def Duration.from_millis (ms : Nat) : Duration :=
  { secs := ms / 1000, nanos := (ms % 1000) * 1000000 }

/-- src/utils.rs `duration_to_millis`: `(seconds * 1_000) + (nanos / 1_000_000)`
in `u64` arithmetic; both the multiplication and the addition wrap at 2^64
(release-profile semantics). -/
def duration_to_millis (d : Duration) : Nat :=
  (d.secs * 1000 % U64 + d.nanos / 1000000) % U64

/-- src/wkhtmltopdf.rs `Orientation`. -/
inductive Orientation where
  | Landscape
  | Portrait
deriving DecidableEq, Repr

/-- src/wkhtmltopdf.rs `impl From<Orientation> for String`. -/
def orientationToString : Orientation → String
  | Orientation.Landscape => "Landscape"
  | Orientation.Portrait => "Portrait"

/-- src/wkhtmltopdf.rs `PageSize` (30 named paper sizes). -/
inductive PageSize where
  | A0 | A1 | A2 | A3 | A4 | A5 | A6 | A7 | A8 | A9
  | B0 | B1 | B2 | B3 | B4 | B5 | B6 | B7 | B8 | B9 | B10
  | C5E | Comm10E | DLE | Executive | Folio | Ledger | Legal | Letter | Tabloid
deriving DecidableEq, Repr

/-- src/wkhtmltopdf.rs `impl From<PageSize> for String`.  Note the source
serializes `Ledger` as the string "Ledgar". -/
def pageSizeToString : PageSize → String
  | PageSize.A0 => "A0"
  | PageSize.A1 => "A1"
  | PageSize.A2 => "A2"
  | PageSize.A3 => "A3"
  | PageSize.A4 => "A4"
  | PageSize.A5 => "A5"
  | PageSize.A6 => "A6"
  | PageSize.A7 => "A7"
  | PageSize.A8 => "A8"
  | PageSize.A9 => "A9"
  | PageSize.B0 => "B0"
  | PageSize.B1 => "B1"
  | PageSize.B2 => "B2"
  | PageSize.B3 => "B3"
  | PageSize.B4 => "B4"
  | PageSize.B5 => "B5"
  | PageSize.B6 => "B6"
  | PageSize.B7 => "B7"
  | PageSize.B8 => "B8"
  | PageSize.B9 => "B9"
  | PageSize.B10 => "B10"
  | PageSize.C5E => "C5E"
  | PageSize.Comm10E => "Comm10E"
  | PageSize.DLE => "DLE"
  | PageSize.Executive => "Executive"
  | PageSize.Folio => "Folio"
  | PageSize.Ledger => "Ledgar"
  | PageSize.Legal => "Legal"
  | PageSize.Letter => "Letter"
  | PageSize.Tabloid => "Tabloid"

/-- src/wkhtmltopdf.rs `Settings`.  `zoom` is an `f32` in the source and is
formatted with two decimals when serialized; the claims under verification
never depend on the float value, so the field carries the already-formatted
string. -/
structure Settings where
  disable_external_links : Bool
  disable_javascript : Bool
  enable_forms : Bool
  dpi : Nat
  grayscale : Bool
  image_dpi : Nat
  image_quality : Nat
  low_quality : Bool
  javascript_delay : Duration
  margin_bottom : String
  margin_left : String
  margin_right : String
  margin_top : String
  no_background : Bool
  no_images : Bool
  no_pdf_compression : Bool
  orientation : Orientation
  page_size : PageSize
  zoom : String
deriving DecidableEq, Repr

/-- src/wkhtmltopdf.rs `impl Default for Settings` (non-macOS zoom default
`1.0`, formatted "1.00"). -/
def Settings.default : Settings :=
  { disable_external_links := false
    disable_javascript := false
    enable_forms := false
    dpi := 96
    grayscale := false
    image_dpi := 600
    image_quality := 94
    low_quality := false
    javascript_delay := Duration.from_millis 200
    margin_bottom := "0.5in"
    margin_left := "0.5in"
    margin_right := "0.5in"
    margin_top := "0.5in"
    no_background := false
    no_images := false
    no_pdf_compression := false
    orientation := Orientation.Portrait
    page_size := PageSize.Letter
    zoom := "1.00" }

/-- src/wkhtmltopdf.rs `Settings::to_arguments`: the pushes/extends of the
source, in source order.  Bare flags are pushed only when the corresponding
boolean is true; every value-bearing option is always emitted as a
name/value pair. -/
def Settings.to_arguments (s : Settings) : List String :=
  (if s.disable_external_links then ["--disable-external-links"] else []) ++
  (if s.disable_javascript then ["--disable-javascript"] else []) ++
  (if s.enable_forms then ["--enable-forms"] else []) ++
  ["--dpi", toString s.dpi] ++
  (if s.grayscale then ["--grayscale"] else []) ++
  ["--image-dpi", toString s.image_dpi] ++
  ["--image-quality", toString s.image_quality] ++
  (if s.low_quality then ["--low-quality"] else []) ++
  ["--javascript-delay", toString (duration_to_millis s.javascript_delay)] ++
  ["--margin-bottom", s.margin_bottom] ++
  ["--margin-left", s.margin_left] ++
  ["--margin-right", s.margin_right] ++
  ["--margin-top", s.margin_top] ++
  (if s.no_background then ["--no-background"] else []) ++
  (if s.no_images then ["--no-images"] else []) ++
  (if s.no_pdf_compression then ["--no-pdf-compression"] else []) ++
  ["--orientation", orientationToString s.orientation] ++
  ["--page-size", pageSizeToString s.page_size] ++
  ["--zoom", s.zoom]

/-- src/client.rs `Client::get_pdf` lines 180-208: the argument vector it
passes to the `wkhtmltopdf` subprocess.  In this snapshot of client.rs the
list is hardcoded (only the zoom string comes from the `Client`), and the
url and destination path are the final two positional arguments. -/
def get_pdf_arguments (zoom url path : String) : List String :=
  ["--disable-external-links", "--disable-internal-links",
   "--dpi", "96",
   "--image-dpi", "600",
   "--image-quality", "94",
   "--margin-bottom", "0.5in",
   "--margin-left", "0.5in",
   "--margin-right", "0.5in",
   "--margin-top", "0.5in",
   "--orientation", "Portrait",
   "--page-size", "Letter",
   "--zoom", zoom,
   url, path]

/-- src/semaphore.rs `Semaphore`: three independent bounded counters
(request-rate, CPU threads, IO threads), each a `Mutex<usize>` plus a
condition variable in the source. -/
structure Semaphore where
  max_requests_per_second : Nat
  max_threads_cpu : Nat
  max_threads_io : Nat
  requests : Nat
  threads_cpu : Nat
  threads_io : Nat
deriving DecidableEq, Repr

/-- src/semaphore.rs `Semaphore::new` (counters start at zero). -/
def Semaphore.new (m c i : Nat) : Semaphore :=
  { max_requests_per_second := m
    max_threads_cpu := c
    max_threads_io := i
    requests := 0
    threads_cpu := 0
    threads_io := 0 }

/-- The operations src/semaphore.rs exposes.  There is no decrement for the
request counter in the source: the request gate is only ever incremented or
reset. -/
inductive SemOp where
  | reset_requests
  | increment_requests
  | increment_threads_cpu
  | decrement_threads_cpu
  | increment_threads_io
  | decrement_threads_io
deriving DecidableEq, Repr

/-- One completed operation on the `Semaphore`.  An increment blocks on the
condition variable while `count >= maximum`; a blocked increment has not
completed, so it yields `none` here (it contributes no reachable state).
Decrements are the source's unguarded `usize` subtraction, which wraps at
zero in the release profile. -/
def Semaphore.step (s : Semaphore) : SemOp → Option Semaphore
  | SemOp.reset_requests => some { s with requests := 0 }
  | SemOp.increment_requests =>
      if s.requests < s.max_requests_per_second then
        some { s with requests := s.requests + 1 }
      else none
  | SemOp.increment_threads_cpu =>
      if s.threads_cpu < s.max_threads_cpu then
        some { s with threads_cpu := s.threads_cpu + 1 }
      else none
  | SemOp.decrement_threads_cpu => some { s with threads_cpu := wrapDec s.threads_cpu }
  | SemOp.increment_threads_io =>
      if s.threads_io < s.max_threads_io then
        some { s with threads_io := s.threads_io + 1 }
      else none
  | SemOp.decrement_threads_io => some { s with threads_io := wrapDec s.threads_io }

/-- A sequence of completed `Semaphore` operations. -/
def Semaphore.run (s : Semaphore) : List SemOp → Option Semaphore
  | [] => some s
  | op :: ops => (s.step op).bind (fun s2 => s2.run ops)

/-- `Semaphore.step` restricted to the release discipline the orchestrator
obeys (every decrement follows a matching increment, so decrements never
run at a zero count and never underflow). -/
def Semaphore.stepChecked (s : Semaphore) : SemOp → Option Semaphore
  | SemOp.decrement_threads_cpu =>
      if s.threads_cpu = 0 then none
      else some { s with threads_cpu := s.threads_cpu - 1 }
  | SemOp.decrement_threads_io =>
      if s.threads_io = 0 then none
      else some { s with threads_io := s.threads_io - 1 }
  | op => s.step op

/-- A sequence of completed operations under the release discipline. -/
def Semaphore.runChecked (s : Semaphore) : List SemOp → Option Semaphore
  | [] => some s
  | op :: ops => (s.stepChecked op).bind (fun s2 => s2.runChecked ops)

/-- The request gate together with its condition variable's wait queue:
`waiters` counts the threads currently blocked inside
`increment_requests`'s `requests_condvar.wait` loop. -/
structure RequestGateCV where
  maximum : Nat
  count : Nat
  waiters : Nat
deriving DecidableEq, Repr

/-- src/semaphore.rs `Semaphore::reset_requests` with the condition-variable
wait queue made explicit: the counter is zeroed under the mutex and
`Condvar::notify_one` wakes at most one blocked waiter.  Returns the new
gate state and the number of waiters woken. -/
def RequestGateCV.reset_requests (g : RequestGateCV) : RequestGateCV × Nat :=
  let woken := min g.waiters 1
  ({ g with count := 0, waiters := g.waiters - woken }, woken)

/-- Payload bytes (`Vec<u8>`). -/
abbrev Bytes := List Nat

/-- Durable storage: a map from destination paths to file contents. -/
abbrev FS := String → Option Bytes

/-- Point update of the filesystem map. -/
def updateFS (fs : FS) (p : String) (b : Bytes) : FS :=
  fun q => if q = p then some b else fs q

/-- An HTTP response as the transport hands it back: status code and body. -/
structure HttpResponse where
  status : Nat
  body : Bytes
deriving DecidableEq, Repr

/-- src/client.rs `Client::get_url`: propagate a transport failure; succeed
only on status exactly 200 (`StatusCode::Ok`), buffering the entire body;
any other status (including other 2xx codes) is an error. -/
def get_url (resp : Except String HttpResponse) : Except String Bytes :=
  match resp with
  | Except.error e => Except.error e
  | Except.ok r =>
      if r.status = 200 then Except.ok r.body
      else Except.error ("response status: " ++ toString r.status)

/-- A caller-supplied document handle (the `Document` trait): destination
path, source url, conversion-required flag, and the optional payload set by
`set_bytes`. -/
structure Doc where
  path : String
  url : String
  wkhtmltopdf : Bool
  bytes : Option Bytes
deriving DecidableEq, Repr

/-- The external collaborators of one batch call:
`http url` is the transport's response to a single GET (consumed by
`get_url`), and `convert url` is the outcome of running the wkhtmltopdf
subprocess on `url` — `ok b` means the tool exited with status 0 having
written `b` to the destination file (which `get_pdf` then reads back);
`error` means a non-zero exit, in which case the core writes nothing. -/
structure World where
  http : String → Except String HttpResponse
  convert : String → Except String Bytes

/-- Observable actions of a batch run, used to state the gate/caching
claims.  `fetchCall p u` and `convertCall p u` carry the document's
destination path `p` and url `u`. -/
inductive Event where
  | cacheRead : String → Event
  | acquireRequest : Event
  | acquireCpu : Event
  | releaseCpu : Event
  | acquireIo : Event
  | releaseIo : Event
  | fetchCall : String → String → Event
  | convertCall : String → String → Event
deriving DecidableEq, Repr

/-- State threaded through the dispatch loop of `Client::get_documents`:
the filesystem, the results channel in send order (`queue`), the event
trace, and the number of spawned children (`children.len()` in the
source — cache hits send a result but are never pushed to `children`). -/
structure BatchState where
  fs : FS
  queue : List (Except String Unit)
  trace : List Event
  children : Nat

/-- One iteration of the dispatch loop of src/client.rs
`Client::get_documents` (lines 102-152), under the linearized schedule in
which each spawned job runs to completion at its spawn point; the channel
is FIFO, so `queue` lists results in send order.

* Destination already on disk: read it, attach the bytes, send `Ok` — no
  gate is touched and no fetch/convert happens.
* Otherwise acquire the request gate, then the CPU (conversion job) or IO
  (raw job) gate, run the collaborator, write/attach on success, send the
  outcome, release the CPU/IO gate.  The request gate is never released by
  the job. -/
def processDoc (w : World) (st : BatchState) (d : Doc) : Doc × BatchState :=
  match st.fs d.path with
  | some bytes =>
      ({ d with bytes := some bytes },
       { st with queue := st.queue ++ [Except.ok ()],
                 trace := st.trace ++ [Event.cacheRead d.path] })
  | none =>
      if d.wkhtmltopdf then
        match w.convert d.url with
        | Except.ok bytes =>
            ({ d with bytes := some bytes },
             { fs := updateFS st.fs d.path bytes,
               queue := st.queue ++ [Except.ok ()],
               trace := st.trace ++ [Event.acquireRequest, Event.acquireCpu,
                 Event.convertCall d.path d.url, Event.releaseCpu],
               children := st.children + 1 })
        | Except.error e =>
            (d,
             { st with queue := st.queue ++ [Except.error e],
                       trace := st.trace ++ [Event.acquireRequest, Event.acquireCpu,
                         Event.convertCall d.path d.url, Event.releaseCpu],
                       children := st.children + 1 })
      else
        match get_url (w.http d.url) with
        | Except.ok bytes =>
            ({ d with bytes := some bytes },
             { fs := updateFS st.fs d.path bytes,
               queue := st.queue ++ [Except.ok ()],
               trace := st.trace ++ [Event.acquireRequest, Event.acquireIo,
                 Event.fetchCall d.path d.url, Event.releaseIo],
               children := st.children + 1 })
        | Except.error e =>
            (d,
             { st with queue := st.queue ++ [Except.error e],
                       trace := st.trace ++ [Event.acquireRequest, Event.acquireIo,
                         Event.fetchCall d.path d.url, Event.releaseIo],
                       children := st.children + 1 })

/-- The dispatch loop over the (already sorted) document slice. -/
def runDocs (w : World) : List Doc → BatchState → List Doc × BatchState
  | [], st => ([], st)
  | d :: ds, st =>
      let r := processDoc w st d
      let rest := runDocs w ds r.2
      (r.1 :: rest.1, rest.2)

/-- src/client.rs line 99: the stable sort of the documents by their
`wkhtmltopdf()` flag ascending (raw jobs first).  A stable sort on a
boolean key is exactly this partition. -/
def sortDocs (docs : List Doc) : List Doc :=
  docs.filter (fun d => !d.wkhtmltopdf) ++ docs.filter (fun d => d.wkhtmltopdf)

/-- src/client.rs lines 162-165: `for result in results { result?; }` — the
first error among the received results, if any. -/
def firstError : List (Except String Unit) → Except String Unit
  | [] => Except.ok ()
  | Except.ok () :: rs => firstError rs
  | Except.error e :: _ => Except.error e

/-- The bytes a non-cached job for `d` would produce: the converter's output
for a conversion job, the fetched body for a raw job. -/
def jobBytes (w : World) (d : Doc) : Except String Bytes :=
  if d.wkhtmltopdf then w.convert d.url else get_url (w.http d.url)

/-- `some` bytes when the job for `d` succeeds, `none` when it fails. -/
def jobFsResult (w : World) (d : Doc) : Option Bytes :=
  match jobBytes w d with
  | Except.ok b => some b
  | Except.error _ => none

/-- The events one loop iteration appends for document `d` given the
filesystem it observes (independent of the job's success or failure). -/
def procEvents (fs : FS) (d : Doc) : List Event :=
  match fs d.path with
  | some _ => [Event.cacheRead d.path]
  | none =>
      if d.wkhtmltopdf then
        [Event.acquireRequest, Event.acquireCpu, Event.convertCall d.path d.url, Event.releaseCpu]
      else
        [Event.acquireRequest, Event.acquireIo, Event.fetchCall d.path d.url, Event.releaseIo]

/-- Whether an event is the fetch/convert dispatch of the document whose
destination is `p`. -/
def isDispatchFor (p : String) : Event → Bool
  | Event.fetchCall q _ => q == p
  | Event.convertCall q _ => q == p
  | _ => false

/-- How many fetch/convert dispatches for destination `p` a trace holds. -/
def dispatches (tr : List Event) (p : String) : Nat :=
  tr.countP (isDispatchFor p)

/-- src/client.rs `Client::get_documents` end to end: sort, dispatch every
document, then receive exactly `children` results from the FIFO channel
(the source's `for _ in children { r2.recv() }`) and fold them with `?`.
Returns the mutated documents (in sorted order), the final batch state and
the aggregate result. -/
def get_documents (w : World) (fs0 : FS) (docs : List Doc) :
    List Doc × BatchState × Except String Unit :=
  let r := runDocs w (sortDocs docs) (BatchState.mk fs0 [] [] 0)
  (r.1, r.2, firstError (r.2.queue.take r.2.children))

/-- Concrete world for the partial-failure batch: the GET for document B's
url fails at the transport, everything else would succeed. -/
def wC1 : World :=
  { http := fun u =>
      if u = "http://b" then Except.error "connection refused"
      else Except.ok { status := 200, body := [7] }
    convert := fun _ => Except.error "unused" }

/-- Initial durable storage for the partial-failure batch: document A's
destination already exists with bytes [1]. -/
def fsC1 : FS := fun p => if p = "a.html" then some ([1] : Bytes) else none

/-- Document A: raw job, destination pre-exists on disk. -/
def docA : Doc := { path := "a.html", url := "http://a", wkhtmltopdf := false, bytes := none }

/-- Document B: raw job, not cached, whose fetch fails. -/
def docB : Doc := { path := "b.html", url := "http://b", wkhtmltopdf := false, bytes := none }

/-- A world in which every transport request fails (used to instantiate the
retry/caching theorems at a concrete failing batch). -/
def wFail : World :=
  { http := fun _ => Except.error "connection refused"
    convert := fun _ => Except.error "failed to spawn" }

/-- Empty durable storage. -/
def fsEmpty : FS := fun _ => none

/-- A raw document with no cached destination (witness input). -/
def docW : Doc := { path := "w.html", url := "http://w", wkhtmltopdf := false, bytes := none }

/-- The three bounded-counter invariants of the admission controller. -/
def SemInv (s : Semaphore) : Prop :=
  s.requests ≤ s.max_requests_per_second
  ∧ s.threads_cpu ≤ s.max_threads_cpu
  ∧ s.threads_io ≤ s.max_threads_io

theorem Semaphore.run_nil (s : Semaphore) : s.run [] = some s := rfl

theorem Semaphore.run_cons (s : Semaphore) (op : SemOp) (ops : List SemOp) :
    s.run (op :: ops) = (s.step op).bind (fun s2 => s2.run ops) := rfl

theorem Semaphore.runChecked_cons (s : Semaphore) (op : SemOp) (ops : List SemOp) :
    s.runChecked (op :: ops) = (s.stepChecked op).bind (fun s2 => s2.runChecked ops) := rfl

/-- A disciplined operation is an operation of the code's (wrapping)
semantics with the same result: a successful checked decrement happens at a
nonzero count, where `wrapDec` is plain subtraction. -/
theorem Semaphore.stepChecked_sound {s s' : Semaphore} {op : SemOp}
    (h : s.stepChecked op = some s') : s.step op = some s' := by
  cases op with
  | decrement_threads_cpu =>
      by_cases h0 : s.threads_cpu = 0
      · simp [Semaphore.stepChecked, h0] at h
      · simp [Semaphore.stepChecked, h0] at h
        subst h
        simp [Semaphore.step, wrapDec, h0]
  | decrement_threads_io =>
      by_cases h0 : s.threads_io = 0
      · simp [Semaphore.stepChecked, h0] at h
      · simp [Semaphore.stepChecked, h0] at h
        subst h
        simp [Semaphore.step, wrapDec, h0]
  | reset_requests => exact h
  | increment_requests => exact h
  | increment_threads_cpu => exact h
  | increment_threads_io => exact h

theorem Semaphore.runChecked_sound :
    ∀ (ops : List SemOp) (s s' : Semaphore),
      s.runChecked ops = some s' → s.run ops = some s' := by
  intro ops
  induction ops with
  | nil => intro s s' h; exact h
  | cons op ops ih =>
      intro s s' h
      rw [Semaphore.runChecked_cons] at h
      rw [Semaphore.run_cons]
      cases hc : s.stepChecked op with
      | none => rw [hc] at h; simp at h
      | some s2 =>
          rw [hc] at h
          simp only [Option.some_bind] at h
          rw [Semaphore.stepChecked_sound hc]
          simpa using ih s2 s' h

/-- No operation changes the configured maxima. -/
theorem Semaphore.stepChecked_maxima {s s' : Semaphore} {op : SemOp}
    (h : s.stepChecked op = some s') :
    s'.max_requests_per_second = s.max_requests_per_second
    ∧ s'.max_threads_cpu = s.max_threads_cpu
    ∧ s'.max_threads_io = s.max_threads_io := by
  cases op <;> simp [Semaphore.stepChecked, Semaphore.step] at h <;>
    first
      | (obtain ⟨-, h⟩ := h; subst h; exact ⟨rfl, rfl, rfl⟩)
      | (subst h; exact ⟨rfl, rfl, rfl⟩)

/-- Every disciplined operation preserves the three count bounds. -/
theorem Semaphore.stepChecked_inv {s s' : Semaphore} {op : SemOp}
    (hi : SemInv s) (h : s.stepChecked op = some s') : SemInv s' := by
  obtain ⟨h1, h2, h3⟩ := hi
  cases op <;> simp [Semaphore.stepChecked, Semaphore.step] at h
  case reset_requests => subst h; exact ⟨Nat.zero_le _, h2, h3⟩
  case increment_requests =>
      obtain ⟨hb, h⟩ := h; subst h; exact ⟨hb, h2, h3⟩
  case increment_threads_cpu =>
      obtain ⟨hb, h⟩ := h; subst h; exact ⟨h1, hb, h3⟩
  case increment_threads_io =>
      obtain ⟨hb, h⟩ := h; subst h; exact ⟨h1, h2, hb⟩
  case decrement_threads_cpu =>
      obtain ⟨-, h⟩ := h; subst h
      exact ⟨h1, Nat.le_trans (Nat.sub_le _ _) h2, h3⟩
  case decrement_threads_io =>
      obtain ⟨-, h⟩ := h; subst h
      exact ⟨h1, h2, Nat.le_trans (Nat.sub_le _ _) h3⟩

theorem Semaphore.runChecked_inv :
    ∀ (ops : List SemOp) (s s' : Semaphore),
      SemInv s → s.runChecked ops = some s' →
      SemInv s'
      ∧ s'.max_requests_per_second = s.max_requests_per_second
      ∧ s'.max_threads_cpu = s.max_threads_cpu
      ∧ s'.max_threads_io = s.max_threads_io := by
  intro ops
  induction ops with
  | nil =>
      intro s s' hi h
      cases h
      exact ⟨hi, rfl, rfl, rfl⟩
  | cons op ops ih =>
      intro s s' hi h
      rw [Semaphore.runChecked_cons] at h
      cases hc : s.stepChecked op with
      | none => rw [hc] at h; simp at h
      | some s2 =>
          rw [hc] at h
          simp only [Option.some_bind] at h
          obtain ⟨m1, m2, m3⟩ := Semaphore.stepChecked_maxima hc
          obtain ⟨hi', n1, n2, n3⟩ := ih s2 s' (Semaphore.stepChecked_inv hi hc) h
          exact ⟨hi', n1.trans m1, n2.trans m2, n3.trans m3⟩

theorem Semaphore.run_append (s : Semaphore) (l1 l2 : List SemOp) :
    s.run (l1 ++ l2) = (s.run l1).bind (fun s2 => s2.run l2) := by
  induction l1 generalizing s with
  | nil => simp [Semaphore.run]
  | cons op ops ih =>
      rw [List.cons_append, Semaphore.run_cons, Semaphore.run_cons]
      cases s.step op with
      | none => simp
      | some s2 => simp [ih s2]

/-- No operation of the wrapping semantics changes the maxima either. -/
theorem Semaphore.run_maxima :
    ∀ (ops : List SemOp) (s s' : Semaphore), s.run ops = some s' →
      s'.max_requests_per_second = s.max_requests_per_second
      ∧ s'.max_threads_cpu = s.max_threads_cpu
      ∧ s'.max_threads_io = s.max_threads_io := by
  intro ops
  induction ops with
  | nil => intro s s' h; cases h; exact ⟨rfl, rfl, rfl⟩
  | cons op ops ih =>
      intro s s' h
      rw [Semaphore.run_cons] at h
      cases hc : s.step op with
      | none => rw [hc] at h; simp at h
      | some s2 =>
          rw [hc] at h
          simp only [Option.some_bind] at h
          obtain ⟨n1, n2, n3⟩ := ih s2 s' h
          have m : s2.max_requests_per_second = s.max_requests_per_second
              ∧ s2.max_threads_cpu = s.max_threads_cpu
              ∧ s2.max_threads_io = s.max_threads_io := by
            cases op <;> simp [Semaphore.step] at hc <;>
              first
                | (obtain ⟨-, hc⟩ := hc; subst hc; exact ⟨rfl, rfl, rfl⟩)
                | (subst hc; exact ⟨rfl, rfl, rfl⟩)
          exact ⟨n1.trans m.1, n2.trans m.2.1, n3.trans m.2.2⟩

/-- The request counter never exceeds its maximum, under any sequence of
completed operations (there is no request decrement to underflow it). -/
theorem Semaphore.run_requests_le :
    ∀ (ops : List SemOp) (s s' : Semaphore), s.run ops = some s' →
      s.requests ≤ s.max_requests_per_second →
      s'.requests ≤ s'.max_requests_per_second := by
  intro ops
  induction ops with
  | nil => intro s s' h hle; cases h; exact hle
  | cons op ops ih =>
      intro s s' h hle
      rw [Semaphore.run_cons] at h
      cases hc : s.step op with
      | none => rw [hc] at h; simp at h
      | some s2 =>
          rw [hc] at h
          simp only [Option.some_bind] at h
          refine ih s2 s' h ?_
          cases op <;> simp [Semaphore.step] at hc
          case reset_requests => subst hc; exact Nat.zero_le _
          case increment_requests =>
              obtain ⟨hb, hc⟩ := hc; subst hc; simpa using hb
          case increment_threads_cpu =>
              obtain ⟨-, hc⟩ := hc; subst hc; simpa using hle
          case increment_threads_io =>
              obtain ⟨-, hc⟩ := hc; subst hc; simpa using hle
          case decrement_threads_cpu => subst hc; simpa using hle
          case decrement_threads_io => subst hc; simpa using hle

/-- Between resets the request counter advances by exactly the number of
completed `increment_requests` operations. -/
theorem Semaphore.run_requests_count :
    ∀ (ops : List SemOp) (s s' : Semaphore),
      SemOp.reset_requests ∉ ops → s.run ops = some s' →
      s'.requests = s.requests + ops.count SemOp.increment_requests := by
  intro ops
  induction ops with
  | nil => intro s s' _ h; cases h; simp
  | cons op ops ih =>
      intro s s' hnr h
      rw [Semaphore.run_cons] at h
      cases hc : s.step op with
      | none => rw [hc] at h; simp at h
      | some s2 =>
          rw [hc] at h
          simp only [Option.some_bind] at h
          have hnr' : SemOp.reset_requests ∉ ops := fun hm => hnr (List.mem_cons_of_mem _ hm)
          have hop : op ≠ SemOp.reset_requests := fun he => hnr (he ▸ List.mem_cons_self _ _)
          have hrec := ih s2 s' hnr' h
          cases op <;> simp [Semaphore.step] at hc
          case reset_requests => exact absurd rfl hop
          case increment_requests =>
              obtain ⟨-, hc⟩ := hc; subst hc
              rw [hrec]
              simp [List.count_cons]
              omega
          case increment_threads_cpu =>
              obtain ⟨-, hc⟩ := hc; subst hc
              rw [hrec]
              simp [List.count_cons]
          case increment_threads_io =>
              obtain ⟨-, hc⟩ := hc; subst hc
              rw [hrec]
              simp [List.count_cons]
          case decrement_threads_cpu =>
              subst hc
              rw [hrec]
              simp [List.count_cons]
          case decrement_threads_io =>
              subst hc
              rw [hrec]
              simp [List.count_cons]

/-- Claim C3 (counterexample): the claim quantifies over every sequence of
acquire/release/reset operations, but a release at count zero is the
source's unguarded `usize` subtraction, which wraps: after a single
`decrement_threads_cpu` from the initial state the CPU count is 2^64 - 1,
far above the configured maximum 1. -/
theorem semaphore_underflow_cx :
    Semaphore.run (Semaphore.new 1 1 1) [SemOp.decrement_threads_cpu]
      = some (Semaphore.mk 1 1 1 0 (U64 - 1) 0)
    ∧ (Semaphore.new 1 1 1).max_threads_cpu < U64 - 1 := by
  constructor
  · rfl
  · show 1 < U64 - 1
    norm_num [U64]

/-- Claim C3 (amended): in every state reachable by a sequence of
acquire/release/reset operations in which no release runs at a zero count
(the discipline the orchestrator obeys: each decrement follows its matching
increment), all three gate counts stay at or below their configured maxima;
moreover every such disciplined history is a history of the code's wrapping
semantics with the same final state. -/
theorem semaphore_counts_never_exceed_maxima (m c i : Nat) (ops : List SemOp)
    (s : Semaphore) (h : Semaphore.runChecked (Semaphore.new m c i) ops = some s) :
    Semaphore.run (Semaphore.new m c i) ops = some s
    ∧ s.requests ≤ m ∧ s.threads_cpu ≤ c ∧ s.threads_io ≤ i := by
  have hinv0 : SemInv (Semaphore.new m c i) := by
    refine ⟨?_, ?_, ?_⟩ <;> exact Nat.zero_le _
  obtain ⟨⟨i1, i2, i3⟩, e1, e2, e3⟩ := Semaphore.runChecked_inv ops _ _ hinv0 h
  refine ⟨Semaphore.runChecked_sound ops _ _ h, ?_, ?_, ?_⟩
  · calc s.requests ≤ s.max_requests_per_second := i1
      _ = m := e1
  · calc s.threads_cpu ≤ s.max_threads_cpu := i2
      _ = c := e2
  · calc s.threads_io ≤ s.max_threads_io := i3
      _ = i := e3

/-- Claim C3 (witness): a concrete disciplined history on gates with
maximum 1. -/
theorem semaphore_counts_never_exceed_maxima_witness :
    Semaphore.run (Semaphore.new 1 1 1)
        [SemOp.increment_requests, SemOp.increment_threads_cpu,
         SemOp.decrement_threads_cpu, SemOp.reset_requests]
      = some (Semaphore.mk 1 1 1 0 0 0)
    ∧ (Semaphore.mk 1 1 1 0 0 0).requests ≤ 1
    ∧ (Semaphore.mk 1 1 1 0 0 0).threads_cpu ≤ 1
    ∧ (Semaphore.mk 1 1 1 0 0 0).threads_io ≤ 1 :=
  semaphore_counts_never_exceed_maxima 1 1 1
    [SemOp.increment_requests, SemOp.increment_threads_cpu,
     SemOp.decrement_threads_cpu, SemOp.reset_requests]
    (Semaphore.mk 1 1 1 0 0 0) (by decide)

/-- Claim C5: within any single reset window — the completed operations
strictly between a `reset_requests` and the next one — the number of
successful request-gate acquisitions never exceeds the configured maximum
`m`.  Stated over the code's wrapping semantics: the request counter has no
decrement, so no discipline hypothesis is needed. -/
theorem request_window_bounded (m c i : Nat) (ops1 ops2 : List SemOp)
    (s : Semaphore)
    (h : Semaphore.run (Semaphore.new m c i) (ops1 ++ SemOp.reset_requests :: ops2)
          = some s)
    (hw : SemOp.reset_requests ∉ ops2) :
    ops2.count SemOp.increment_requests ≤ m := by
  rw [Semaphore.run_append] at h
  cases hA : Semaphore.run (Semaphore.new m c i) ops1 with
  | none => rw [hA] at h; simp at h
  | some sA =>
      rw [hA] at h
      simp only [Option.some_bind] at h
      rw [Semaphore.run_cons] at h
      simp only [Semaphore.step, Option.some_bind] at h
      have hcount := Semaphore.run_requests_count ops2 _ _ hw h
      have hle := Semaphore.run_requests_le ops2 _ _ h (by simp)
      have hmA := Semaphore.run_maxima ops1 _ _ hA
      have hm2 := Semaphore.run_maxima ops2 _ _ h
      have hnewm : (Semaphore.new m c i).max_requests_per_second = m := rfl
      simp at hcount
      -- s.requests equals the window's acquisition count and is bounded by
      -- the (preserved) maximum m.
      have : s.max_requests_per_second = m := by
        rw [hm2.1]
        simpa [hnewm] using hmA.1
      omega

/-- Claim C5 (witness): maximum 2, one acquisition before the reset, two
inside the window. -/
theorem request_window_bounded_witness :
    ([SemOp.increment_requests, SemOp.increment_requests] : List SemOp).count
        SemOp.increment_requests ≤ 2 :=
  request_window_bounded 2 1 1 [SemOp.increment_requests]
    [SemOp.increment_requests, SemOp.increment_requests]
    (Semaphore.mk 2 1 1 2 0 0) (by decide) (by decide)

/-- Claim C8 (counterexample): `reset_requests` calls `Condvar::notify_one`,
so with two waiters blocked in acquire only one is woken by the reset — not
all of them as the claim states: one waiter remains blocked. -/
theorem reset_requests_wakes_only_one_cx :
    ((RequestGateCV.mk 5 3 2).reset_requests).2 = 1
    ∧ ((RequestGateCV.mk 5 3 2).reset_requests).2 ≠ (RequestGateCV.mk 5 3 2).waiters
    ∧ ((RequestGateCV.mk 5 3 2).reset_requests).1.waiters = 1 := by
  decide

/-- Claim C8 (amended): `reset_requests` atomically zeroes the request
counter and wakes at most one waiter — exactly one whenever any are
blocked — leaving the maximum unchanged and every other waiter blocked
(subsequent wakeups are chained by each successful acquire's own notify). -/
theorem reset_requests_zeroes_and_wakes_at_most_one (g : RequestGateCV) :
    (g.reset_requests).1.count = 0
    ∧ (g.reset_requests).1.maximum = g.maximum
    ∧ (g.reset_requests).2 = min g.waiters 1
    ∧ (g.reset_requests).1.waiters + (g.reset_requests).2 = g.waiters := by
  refine ⟨rfl, rfl, rfl, ?_⟩
  exact Nat.sub_add_cancel (Nat.min_le_left _ _)

/-- Claim C9: the PageSize-to-string conversion spells every variant by its
name except `Ledger`, which it serializes as "Ledgar"; the conversion never
produces the string "Ledger" for any variant, and for every `Settings` with
page size `Ledger` the value paired with "--page-size" in the argument
vector is "Ledgar". -/
theorem ledger_serialized_as_ledgar :
    pageSizeToString PageSize.Ledger = "Ledgar"
    ∧ (∀ p : PageSize, pageSizeToString p ≠ "Ledger")
    ∧ (pageSizeToString PageSize.A0 = "A0" ∧ pageSizeToString PageSize.A1 = "A1"
       ∧ pageSizeToString PageSize.A2 = "A2" ∧ pageSizeToString PageSize.A3 = "A3"
       ∧ pageSizeToString PageSize.A4 = "A4" ∧ pageSizeToString PageSize.A5 = "A5"
       ∧ pageSizeToString PageSize.A6 = "A6" ∧ pageSizeToString PageSize.A7 = "A7"
       ∧ pageSizeToString PageSize.A8 = "A8" ∧ pageSizeToString PageSize.A9 = "A9"
       ∧ pageSizeToString PageSize.B0 = "B0" ∧ pageSizeToString PageSize.B1 = "B1"
       ∧ pageSizeToString PageSize.B2 = "B2" ∧ pageSizeToString PageSize.B3 = "B3"
       ∧ pageSizeToString PageSize.B4 = "B4" ∧ pageSizeToString PageSize.B5 = "B5"
       ∧ pageSizeToString PageSize.B6 = "B6" ∧ pageSizeToString PageSize.B7 = "B7"
       ∧ pageSizeToString PageSize.B8 = "B8" ∧ pageSizeToString PageSize.B9 = "B9"
       ∧ pageSizeToString PageSize.B10 = "B10" ∧ pageSizeToString PageSize.C5E = "C5E"
       ∧ pageSizeToString PageSize.Comm10E = "Comm10E"
       ∧ pageSizeToString PageSize.DLE = "DLE"
       ∧ pageSizeToString PageSize.Executive = "Executive"
       ∧ pageSizeToString PageSize.Folio = "Folio"
       ∧ pageSizeToString PageSize.Legal = "Legal"
       ∧ pageSizeToString PageSize.Letter = "Letter"
       ∧ pageSizeToString PageSize.Tabloid = "Tabloid")
    ∧ (∀ s : Settings, s.page_size = PageSize.Ledger →
        ∃ front, Settings.to_arguments s = front ++ ["--page-size", "Ledgar", "--zoom", s.zoom]) := by
  refine ⟨rfl, ?_, by decide, ?_⟩
  · intro p; cases p <;> decide
  · intro s h
    refine ⟨(if s.disable_external_links then ["--disable-external-links"] else []) ++
      (if s.disable_javascript then ["--disable-javascript"] else []) ++
      (if s.enable_forms then ["--enable-forms"] else []) ++
      ["--dpi", toString s.dpi] ++
      (if s.grayscale then ["--grayscale"] else []) ++
      ["--image-dpi", toString s.image_dpi] ++
      ["--image-quality", toString s.image_quality] ++
      (if s.low_quality then ["--low-quality"] else []) ++
      ["--javascript-delay", toString (duration_to_millis s.javascript_delay)] ++
      ["--margin-bottom", s.margin_bottom] ++
      ["--margin-left", s.margin_left] ++
      ["--margin-right", s.margin_right] ++
      ["--margin-top", s.margin_top] ++
      (if s.no_background then ["--no-background"] else []) ++
      (if s.no_images then ["--no-images"] else []) ++
      (if s.no_pdf_compression then ["--no-pdf-compression"] else []) ++
      ["--orientation", orientationToString s.orientation], ?_⟩
    simp [Settings.to_arguments, h, pageSizeToString, List.append_assoc]

/-- Claim C9 (witness): the default settings with page size switched to
`Ledger`. -/
theorem ledger_serialized_as_ledgar_witness :
    ∃ front,
      Settings.to_arguments { Settings.default with page_size := PageSize.Ledger }
        = front ++ ["--page-size", "Ledgar", "--zoom",
            ({ Settings.default with page_size := PageSize.Ledger } : Settings).zoom] :=
  ledger_serialized_as_ledgar.2.2.2 { Settings.default with page_size := PageSize.Ledger } rfl

/-- Claim C10 (counterexample): the claim's overflow side condition covers
only the multiplication `as_secs * 1000`, but the subsequent u64 addition
of `nanos / 1_000_000` can still wrap.  For the valid Duration with
18446744073709551 seconds and 999_000_000 nanoseconds the product fits in
u64, yet `duration_to_millis` returns 383 instead of the claimed
18446744073709551999. -/
theorem duration_to_millis_overflow_cx :
    (18446744073709551 : Nat) * 1000 < U64
    ∧ (999000000 : Nat) < 1000000000
    ∧ duration_to_millis (Duration.mk 18446744073709551 999000000) = 383
    ∧ (18446744073709551 : Nat) * 1000 + 999000000 / 1000000 = 18446744073709551999
    ∧ (383 : Nat) ≠ 18446744073709551999 := by
  refine ⟨by norm_num [U64], by norm_num, by decide, by norm_num, by norm_num⟩

/-- Claim C10 (amended): for every Duration whose full millisecond value
`as_secs * 1000 + subsec_nanos / 1_000_000` fits in u64, `duration_to_millis`
computes exactly that value under truncating division; in particular any
delay shorter than one millisecond serializes as 0. -/
theorem duration_to_millis_exact (d : Duration)
    (h : d.secs * 1000 + d.nanos / 1000000 < U64) :
    duration_to_millis d = d.secs * 1000 + d.nanos / 1000000
    ∧ (d.secs = 0 → d.nanos < 1000000 → duration_to_millis d = 0) := by
  constructor
  · have h1 : d.secs * 1000 < U64 := Nat.lt_of_le_of_lt (Nat.le_add_right _ _) h
    unfold duration_to_millis
    rw [Nat.mod_eq_of_lt h1, Nat.mod_eq_of_lt h]
  · intro h0 hn
    unfold duration_to_millis
    rw [h0, Nat.div_eq_of_lt hn]
    simp

/-- Claim C10 (witness): the crate's own unit-test value, two seconds. -/
theorem duration_to_millis_exact_witness :
    (Duration.mk 2 0).secs * 1000 + (Duration.mk 2 0).nanos / 1000000 < U64
    ∧ duration_to_millis (Duration.mk 2 0)
        = (Duration.mk 2 0).secs * 1000 + (Duration.mk 2 0).nanos / 1000000 :=
  ⟨by norm_num [U64], (duration_to_millis_exact (Duration.mk 2 0) (by norm_num [U64])).1⟩

/-- Claim C7: a fetch succeeds exactly when the response status is 200, in
which case the whole buffered body is returned; any other status — other
2xx codes included — yields the transport error, and a transport-level
failure propagates. -/
theorem get_url_requires_exact_200 (r : HttpResponse) (e : String) :
    (get_url (Except.ok r) = Except.ok r.body ↔ r.status = 200)
    ∧ (r.status ≠ 200 →
        get_url (Except.ok r) = Except.error ("response status: " ++ toString r.status))
    ∧ get_url (Except.error e) = Except.error e := by
  refine ⟨⟨?_, ?_⟩, ?_, rfl⟩
  · intro h
    by_contra hne
    simp [get_url, hne] at h
  · intro h
    simp [get_url, h]
  · intro h
    simp [get_url, h]

/-- Claim C7 (witness): status 204, a 2xx code that is not 200, is rejected
with the transport error. -/
theorem get_url_requires_exact_200_witness :
    (HttpResponse.mk 204 ([1] : Bytes)).status ≠ 200
    ∧ get_url (Except.ok (HttpResponse.mk 204 ([1] : Bytes)))
        = Except.error ("response status: "
            ++ toString (HttpResponse.mk 204 ([1] : Bytes)).status) :=
  ⟨by decide, (get_url_requires_exact_200 (HttpResponse.mk 204 [1]) "e").2.1 (by decide)⟩

/-- Claim C4 (code divergence): `Settings::to_arguments` does implement the
claimed per-option contract, but `Client::get_pdf` in this snapshot never
consults a `Settings` value: its argument vector is hardcoded (only the
zoom string varies).  With the default settings — every flag false — the
vector still carries "--disable-external-links" (and
"--disable-internal-links", which is not a Settings option at all), while
the always-emitted value pair "--javascript-delay" is missing. -/
theorem get_pdf_ignores_settings :
    Settings.default.disable_external_links = false
    ∧ "--disable-external-links" ∉ Settings.to_arguments Settings.default
    ∧ "--disable-external-links" ∈ get_pdf_arguments "1.00" "http://example.com" "out.pdf"
    ∧ "--javascript-delay" ∈ Settings.to_arguments Settings.default
    ∧ "--javascript-delay" ∉ get_pdf_arguments "1.00" "http://example.com" "out.pdf"
    ∧ "--disable-internal-links" ∈ get_pdf_arguments "1.00" "http://example.com" "out.pdf" := by
  refine ⟨rfl, by decide, by decide, by decide, by decide, by decide⟩

theorem runDocs_snd_cons (w : World) (d : Doc) (ds : List Doc) (st : BatchState) :
    (runDocs w (d :: ds) st).2 = (runDocs w ds (processDoc w st d).2).2 := rfl

theorem runDocs_snd_append (w : World) (l1 l2 : List Doc) (st : BatchState) :
    (runDocs w (l1 ++ l2) st).2 = (runDocs w l2 (runDocs w l1 st).2).2 := by
  induction l1 generalizing st with
  | nil => rfl
  | cons d ds ih => rw [List.cons_append, runDocs_snd_cons, runDocs_snd_cons, ih]

/-- A loop iteration touches the filesystem only at its own destination. -/
theorem processDoc_fs_ne (w : World) (st : BatchState) (d : Doc) (p : String)
    (hp : p ≠ d.path) : (processDoc w st d).2.fs p = st.fs p := by
  unfold processDoc
  cases hfs : st.fs d.path with
  | some b => simp
  | none =>
      by_cases hwk : d.wkhtmltopdf = true
      · simp only [hwk, if_true]
        cases hc : w.convert d.url with
        | ok b => simp [updateFS, hp]
        | error e => simp
      · simp only [hwk, if_false]
        cases hc : get_url (w.http d.url) with
        | ok b => simp [updateFS, hp]
        | error e => simp

/-- The filesystem after a loop iteration, at the document's own
destination: unchanged on a cache hit or a failed job, the job's bytes on a
successful job. -/
theorem processDoc_fs_self (w : World) (st : BatchState) (d : Doc) :
    (processDoc w st d).2.fs d.path
      = (if st.fs d.path = none then jobFsResult w d else st.fs d.path) := by
  unfold processDoc
  cases hfs : st.fs d.path with
  | some b => simp [hfs]
  | none =>
      by_cases hwk : d.wkhtmltopdf = true
      · simp only [hwk, if_true]
        cases hc : w.convert d.url with
        | ok b => simp [updateFS, hfs, jobFsResult, jobBytes, hwk, hc]
        | error e => simp [updateFS, hfs, jobFsResult, jobBytes, hwk, hc]
      · simp only [hwk, if_false]
        cases hc : get_url (w.http d.url) with
        | ok b => simp [updateFS, hfs, jobFsResult, jobBytes, hwk, hc]
        | error e => simp [updateFS, hfs, jobFsResult, jobBytes, hwk, hc]

/-- A loop iteration appends exactly `procEvents` to the trace, whether the
job succeeds or fails. -/
theorem processDoc_trace (w : World) (st : BatchState) (d : Doc) :
    (processDoc w st d).2.trace = st.trace ++ procEvents st.fs d := by
  unfold processDoc procEvents
  cases hfs : st.fs d.path with
  | some b => simp
  | none =>
      by_cases hwk : d.wkhtmltopdf = true
      · simp only [hwk, if_true]
        cases hc : w.convert d.url with
        | ok b => simp
        | error e => simp
      · simp only [hwk, if_false]
        cases hc : get_url (w.http d.url) with
        | ok b => simp
        | error e => simp

theorem dispatches_append (t1 t2 : List Event) (p : String) :
    dispatches (t1 ++ t2) p = dispatches t1 p + dispatches t2 p :=
  List.countP_append _ _ _

/-- Another document's events contain no dispatch for `p`. -/
theorem dispatches_procEvents_ne (fs : FS) (d : Doc) (p : String)
    (hp : p ≠ d.path) : dispatches (procEvents fs d) p = 0 := by
  have hb : (d.path == p) = false := by
    simp [Ne.symm hp]
  unfold dispatches procEvents
  cases hfs : fs d.path with
  | some b => simp [isDispatchFor, List.countP_cons, List.countP_nil]
  | none =>
      by_cases hwk : d.wkhtmltopdf = true <;>
        simp [hwk, isDispatchFor, List.countP_cons, List.countP_nil, hb]

/-- A document's own events contain exactly one dispatch when its
destination is absent from storage, none when it is cached. -/
theorem dispatches_procEvents_self (fs : FS) (d : Doc) :
    dispatches (procEvents fs d) d.path = if fs d.path = none then 1 else 0 := by
  unfold dispatches procEvents
  cases hfs : fs d.path with
  | some b => simp [isDispatchFor, List.countP_cons, List.countP_nil]
  | none =>
      by_cases hwk : d.wkhtmltopdf = true <;>
        simp [hwk, isDispatchFor, List.countP_cons, List.countP_nil]

/-- Documents whose destinations differ from `p` leave storage at `p` and
the dispatch count for `p` unchanged. -/
theorem runDocs_fs_stable (w : World) (ds : List Doc) (st : BatchState) (p : String)
    (hp : ∀ x ∈ ds, x.path ≠ p) : (runDocs w ds st).2.fs p = st.fs p := by
  induction ds generalizing st with
  | nil => rfl
  | cons d ds ih =>
      rw [runDocs_snd_cons]
      rw [ih _ (fun x hx => hp x (List.mem_cons_of_mem _ hx))]
      exact processDoc_fs_ne w st d p (Ne.symm (hp d (List.mem_cons_self _ _)))

theorem runDocs_dispatches_stable (w : World) (ds : List Doc) (st : BatchState)
    (p : String) (hp : ∀ x ∈ ds, x.path ≠ p) :
    dispatches (runDocs w ds st).2.trace p = dispatches st.trace p := by
  induction ds generalizing st with
  | nil => rfl
  | cons d ds ih =>
      rw [runDocs_snd_cons]
      rw [ih _ (fun x hx => hp x (List.mem_cons_of_mem _ hx))]
      rw [processDoc_trace, dispatches_append,
        dispatches_procEvents_ne st.fs d p (Ne.symm (hp d (List.mem_cons_self _ _)))]
      omega

/-- The run of a batch in which `d` is the only document with its
destination: storage at `d.path` afterwards, and the number of dispatches
for `d.path`, are determined by whether `d` was cached at its turn and by
its job's outcome. -/
theorem runDocs_char (w : World) (l1 l2 : List Doc) (d : Doc) (st : BatchState)
    (h1 : ∀ x ∈ l1, x.path ≠ d.path) (h2 : ∀ x ∈ l2, x.path ≠ d.path) :
    (runDocs w (l1 ++ d :: l2) st).2.fs d.path
        = (if st.fs d.path = none then jobFsResult w d else st.fs d.path)
    ∧ dispatches (runDocs w (l1 ++ d :: l2) st).2.trace d.path
        = dispatches st.trace d.path + (if st.fs d.path = none then 1 else 0) := by
  have hsplit : (runDocs w (l1 ++ d :: l2) st).2
      = (runDocs w l2 (processDoc w (runDocs w l1 st).2 d).2).2 := by
    rw [runDocs_snd_append, runDocs_snd_cons]
  have hfsA : (runDocs w l1 st).2.fs d.path = st.fs d.path :=
    runDocs_fs_stable w l1 st d.path h1
  have hdA : dispatches (runDocs w l1 st).2.trace d.path = dispatches st.trace d.path :=
    runDocs_dispatches_stable w l1 st d.path h1
  constructor
  · rw [hsplit, runDocs_fs_stable w l2 _ d.path h2, processDoc_fs_self, hfsA]
  · rw [hsplit, runDocs_dispatches_stable w l2 _ d.path h2, processDoc_trace,
      dispatches_append, dispatches_procEvents_self, hfsA, hdA]

/-- The stable boolean sort of the dispatch loop is a permutation of the
batch. -/
theorem sortDocs_perm (docs : List Doc) : List.Perm (sortDocs docs) docs := by
  have h := List.filter_append_perm (fun d : Doc => !d.wkhtmltopdf) docs
  simpa [sortDocs, Bool.not_not] using h

/-- Claim C2: a document whose destination already exists in durable
storage when it is dispatched gets the stored bytes attached via
`set_bytes` and a success recorded on the results channel, with storage,
the spawned-children count and the gate/fetch/convert trace untouched — the
only event is the cache read. -/
theorem cache_hit_short_circuits (w : World) (st : BatchState) (d : Doc) (b : Bytes)
    (h : st.fs d.path = some b) :
    processDoc w st d =
      ({ d with bytes := some b },
       { st with queue := st.queue ++ [Except.ok ()],
                 trace := st.trace ++ [Event.cacheRead d.path] }) := by
  unfold processDoc
  rw [h]

/-- Claim C2 (witness): document A dispatched over storage already holding
its destination. -/
theorem cache_hit_short_circuits_witness :
    processDoc wC1 (BatchState.mk fsC1 [] [] 0) docA =
      ({ docA with bytes := some [1] },
       BatchState.mk fsC1 [Except.ok ()] [Event.cacheRead docA.path] 0) :=
  cache_hit_short_circuits wC1 (BatchState.mk fsC1 [] [] 0) docA [1] rfl

/-- Claim C1 (code divergence): in the batch {A cached, B's fetch fails}
the dispatch loop sends two results but the collection loop receives only
`children.len()` = 1 message, so B's error is never read: `get_documents`
returns success even though B's job failed (B's document keeps no bytes,
A's document holds the cached bytes, and the unread error sits in the
channel).  Modelled under the linearized schedule; the FIFO channel order
of this instance is schedule-independent, because A's result is sent
before B's job is spawned. -/
theorem get_documents_drops_error_with_cache_hit :
    (get_documents wC1 fsC1 [docA, docB]).2.2 = Except.ok ()
    ∧ (get_documents wC1 fsC1 [docA, docB]).1.map Doc.bytes = [some [1], none]
    ∧ (get_documents wC1 fsC1 [docA, docB]).2.1.queue
        = [Except.ok (), Except.error "connection refused"]
    ∧ (get_documents wC1 fsC1 [docA, docB]).2.1.children = 1
    ∧ 0 < dispatches (get_documents wC1 fsC1 [docA, docB]).2.1.trace "b.html" := by
  refine ⟨rfl, rfl, rfl, rfl, by decide⟩

/-- Claim C6: with pairwise-distinct destinations, (i) one batch run
dispatches at most one fetch/convert per destination (no automatic retry
inside the core), (ii) a failed job writes nothing to its destination, and
(iii) a second invocation of the batch dispatches a job for a destination
exactly when the first run dispatched one and that job failed — cached and
newly-written destinations are not re-attempted. -/
theorem failed_jobs_reattempted_exactly (w : World) (fs0 : FS) (docs : List Doc)
    (d : Doc) (hN : (docs.map Doc.path).Nodup) (hd : d ∈ docs) :
    dispatches ((runDocs w (sortDocs docs) (BatchState.mk fs0 [] [] 0)).2).trace d.path ≤ 1
    ∧ (jobFsResult w d = none →
        ((runDocs w (sortDocs docs) (BatchState.mk fs0 [] [] 0)).2).fs d.path = fs0 d.path)
    ∧ (0 < dispatches ((runDocs w (sortDocs docs)
          (BatchState.mk ((runDocs w (sortDocs docs) (BatchState.mk fs0 [] [] 0)).2.fs)
            [] [] 0)).2).trace d.path
        ↔ (0 < dispatches ((runDocs w (sortDocs docs)
              (BatchState.mk fs0 [] [] 0)).2).trace d.path
            ∧ jobFsResult w d = none)) := by
  have hperm := sortDocs_perm docs
  have hmem : d ∈ sortDocs docs := hperm.mem_iff.mpr hd
  have hNs : ((sortDocs docs).map Doc.path).Nodup := ((hperm.map Doc.path).nodup_iff).mpr hN
  obtain ⟨l1, l2, hsp⟩ := List.append_of_mem hmem
  rw [hsp] at hNs
  rw [List.map_append, List.map_cons, List.nodup_append] at hNs
  obtain ⟨hn1, hn2, hdisj⟩ := hNs
  rw [List.nodup_cons] at hn2
  have h2 : ∀ x ∈ l2, x.path ≠ d.path := by
    intro x hx he
    exact hn2.1 (he ▸ List.mem_map_of_mem Doc.path hx)
  have h1 : ∀ x ∈ l1, x.path ≠ d.path := by
    intro x hx he
    exact hdisj (List.mem_map_of_mem Doc.path hx) (by rw [he]; exact List.mem_cons_self _ _)
  rw [hsp]
  obtain ⟨hcf1, hcd1⟩ := runDocs_char w l1 l2 d (BatchState.mk fs0 [] [] 0) h1 h2
  obtain ⟨hcf2, hcd2⟩ := runDocs_char w l1 l2 d
    (BatchState.mk ((runDocs w (l1 ++ d :: l2) (BatchState.mk fs0 [] [] 0)).2.fs) [] [] 0)
    h1 h2
  -- The initial states have empty traces, so the dispatch counts start at
  -- zero; rewrite the second run's cache condition by the first run's
  -- storage characterization.
  rw [hcf1] at hcd2
  rw [hcd1, hcd2, hcf1]
  by_cases hA : fs0 d.path = none
  · cases hJ : jobFsResult w d with
    | none => simp [hA, hJ, dispatches, List.countP_nil]
    | some b => simp [hA, hJ, dispatches, List.countP_nil]
  · simp [hA, dispatches, List.countP_nil]

/-- Claim C6 (witness): a single uncached raw document whose fetch fails is
not written, and would be dispatched again on a second run. -/
theorem failed_jobs_reattempted_exactly_witness :
    dispatches ((runDocs wFail (sortDocs [docW])
        (BatchState.mk fsEmpty [] [] 0)).2).trace docW.path ≤ 1
    ∧ (jobFsResult wFail docW = none →
        ((runDocs wFail (sortDocs [docW])
            (BatchState.mk fsEmpty [] [] 0)).2).fs docW.path = fsEmpty docW.path) := by
  have h := failed_jobs_reattempted_exactly wFail fsEmpty [docW] docW (by decide) (by decide)
  exact ⟨h.1, h.2.1⟩

end Urls2disk
